import Mathlib

/-!
Shallow embedding of the `data-source` crate (src/lib.rs): the error
taxonomy, the HTTP fetch path with direct-then-proxy fallback and size
limit, the file cache with freshness check, the folder-search, tar-archive
and name-map backends of `DataSource`.

Bytes are `List Nat`; the filesystem and the network are explicit
environment values threaded through the functions; a Rust panic (an
`unwrap` on `None`) is modelled as the `none` result of an
`Option`-returning function.  `reqwest` and the OS are abstracted at
their call sites: a network send attempt is resolved by a `Network`
environment keyed on whether the proxy was applied, and the filesystem
is an association list of path to content-plus-mtime, with explicit
lists of paths on which a raw read or write call fails.
-/

/-- Io error kinds we need to distinguish: `std::io::ErrorKind::NotFound`
versus any other kind. -/
inductive IoKind where
  | notFound
  | other
deriving DecidableEq, Repr

/-- Model of `FetchError` from src/lib.rs: `R` (reqwest / network, carrying an
abstract error code), `I` (io error with its kind), `T` (system-time
error), `S` (size limit exceeded), `NC` (no cache file), `NF` (not
found), `NFD` (not found in directories, carrying the searched list). -/
inductive FetchError where
  | R : Nat → FetchError
  | I : IoKind → FetchError
  | T : FetchError
  | S : FetchError
  | NC : FetchError
  | NF : FetchError
  | NFD : List String → FetchError
deriving DecidableEq, Repr

instance exceptDecEq {ε α : Type} [DecidableEq ε] [DecidableEq α] :
    DecidableEq (Except ε α) := fun a b =>
  match a, b with
  | .ok x, .ok y =>
    if h : x = y then .isTrue (by rw [h]) else .isFalse (by simp [h])
  | .error x, .error y =>
    if h : x = y then .isTrue (by rw [h]) else .isFalse (by simp [h])
  | .ok _, .error _ => .isFalse (by simp)
  | .error _, .ok _ => .isFalse (by simp)

/-- An HTTP response as far as the code observes it: the declared
content length (if any) and the body bytes. -/
structure HttpResponse where
  content_length : Option Nat
  body : List Nat
deriving DecidableEq, Repr

/-- Whether a send attempt was made directly or through the proxy. -/
inductive Attempt where
  | direct
  | proxied
deriving DecidableEq, Repr

/-- The network environment: what a send attempt returns, keyed on
whether the client was built with the proxy applied.  An `error e` is a
transport failure with abstract code `e` (a `reqwest::Error`). -/
structure Network where
  direct : Except Nat HttpResponse
  viaProxy : Except Nat HttpResponse
deriving DecidableEq, Repr

/-- Model of `HttpSource` from src/lib.rs. -/
structure HttpSource where
  url : String
  proxy : Option String
  custom_request_headers : Option (List (String × String))
  should_use_proxy : Bool
  size_limit_bytes : Option Nat
deriving DecidableEq, Repr

/-- The send-with-retry part of `HttpSource::fetch` (src/lib.rs lines
176-195): if `should_use_proxy` is set the client is built through
`set_proxy`, which unwraps the proxy address (`none` = panic) and sends
once through the proxy; otherwise one direct attempt is made, and on
failure, exactly when a proxy is configured, one retry is made with the
proxy applied.  Returns the final transport outcome together with the
ordered list of attempts made. -/
def HttpSource.sendWithRetry (hs : HttpSource) (net : Network) :
    Option (Except Nat HttpResponse × List Attempt) :=
  if hs.should_use_proxy then
    match hs.proxy with
    | none => none
    | some _ => some (net.viaProxy, [.proxied])
  else
    match net.direct with
    | .ok r => some (.ok r, [.direct])
    | .error e =>
      if hs.proxy.isSome then some (net.viaProxy, [.direct, .proxied])
      else some (.error e, [.direct])

/-- The post-response part of `HttpSource::fetch` (src/lib.rs lines
196-206): if a size limit is configured and the response declares a
content length strictly greater than it, fail with `S` without reading
the body; otherwise read the body.  The boolean records whether the
body was read. -/
def HttpSource.readBody (hs : HttpSource) (r : HttpResponse) :
    Except FetchError (List Nat) × Bool :=
  match hs.size_limit_bytes, r.content_length with
  | some sl, some s => if sl < s then (.error .S, false) else (.ok r.body, true)
  | some _, none => (.ok r.body, true)
  | none, _ => (.ok r.body, true)

/-- The observable outcome of one `HttpSource::fetch` call: the result,
the ordered attempts made, and whether the response body was read. -/
structure FetchOutcome where
  result : Except FetchError (List Nat)
  attempts : List Attempt
  bodyRead : Bool
deriving DecidableEq, Repr

/-- Model of `HttpSource::fetch` (src/lib.rs lines 176-207).  A transport failure
that survives the retry policy is surfaced as `FetchError.R`; `none`
models the panic of the unwrap inside `set_proxy`. -/
def HttpSource.fetch (hs : HttpSource) (net : Network) : Option FetchOutcome :=
  (hs.sendWithRetry net).map (fun p =>
    match p.1 with
    | .error e => ⟨.error (.R e), p.2, false⟩
    | .ok r => ⟨(hs.readBody r).1, p.2, (hs.readBody r).2⟩)

/-- A file as the cache/folder code observes it: its content and its
last-modification time in whole seconds. -/
structure FileData where
  content : List Nat
  mtime : Nat
deriving DecidableEq, Repr

/-- Association-list lookup, the model of both `HashMap::get` and a
path lookup in the filesystem. -/
def lookupAssoc {α : Type} : List (String × α) → String → Option α
  | [], _ => none
  | (k, v) :: rest, key => if k = key then some v else lookupAssoc rest key

/-- The filesystem-and-clock environment: the files (path to data), the
current time in whole seconds, and the paths on which a raw
`std::fs::read` respectively `std::fs::write` call fails with an io
error even though the existence check may have succeeded. -/
structure SysState where
  files : List (String × FileData)
  now : Nat
  readFails : List String
  writeFails : List String
deriving DecidableEq, Repr

/-- Path lookup in the filesystem: `some` iff the path exists. -/
def SysState.lookup (st : SysState) (p : String) : Option FileData :=
  lookupAssoc st.files p

/-- Model of `std::fs::write` on a path that accepts writes: the file now holds
`bytes` with the current time as modification time. -/
def SysState.writeFile (st : SysState) (p : String) (bytes : List Nat) : SysState :=
  { st with files := (p, ⟨bytes, st.now⟩) :: st.files }

/-- Model of `std::fs::read`: an io error of some kind on a failing path, a
not-found io error on a missing path, the content otherwise. -/
def SysState.readFile (st : SysState) (p : String) : Except FetchError (List Nat) :=
  if p ∈ st.readFails then .error (.I .other)
  else
    match st.lookup p with
    | some fd => .ok fd.content
    | none => .error (.I .notFound)

/-- Model of `FileCache` from src/lib.rs. -/
structure FileCache where
  update_interval_seconds : Option Nat
  cache_file_path : Option String
deriving DecidableEq, Repr

/-- Model of `FileCache::read_cache_file` (src/lib.rs lines 31-35): unwraps the
cache file path (`none` = panic when it is unset) and reads it. -/
def FileCache.read_cache_file (fc : FileCache) (st : SysState) :
    Option (Except FetchError (List Nat)) :=
  match fc.cache_file_path with
  | none => none
  | some cf => some (st.readFile cf)

/-- Model of `FileCache::write_cache_file` (src/lib.rs lines 45-53): unwraps the
cache file path (`none` = panic when it is unset) and writes `bytes`,
returning `false` and logging (not failing) when the write errors. -/
def FileCache.write_cache_file (fc : FileCache) (st : SysState) (bytes : List Nat) :
    Option (Bool × SysState) :=
  match fc.cache_file_path with
  | none => none
  | some cf =>
    if cf ∈ st.writeFails then some (false, st)
    else some (true, st.writeFile cf bytes)

/-- Model of `FileCache::is_cache_timeout` (src/lib.rs lines 67-83).  `ok none`
(Absent) when there is no cache file path or the file does not exist;
otherwise `ok (some expired)` where `expired` is false when no refresh
interval is set, and otherwise compares the elapsed whole seconds since
the modification of the file to the interval; a clock anomaly (modification
time in the future) is a `T` error, as `SystemTime::duration_since`
returns. -/
def FileCache.is_cache_timeout (fc : FileCache) (st : SysState) :
    Except FetchError (Option Bool) :=
  match fc.cache_file_path with
  | some cf =>
    match st.lookup cf with
    | some fd =>
      match fc.update_interval_seconds with
      | some interval =>
        if st.now < fd.mtime then .error .T
        else .ok (some (decide (interval < st.now - fd.mtime)))
      | none => .ok (some false)
    | none => .ok none
  | none => .ok none

/-- The observable outcome of one `fetch_with_cache` call: the result,
the filesystem afterwards, whether the fetch of the underlying source was
invoked, and how many cache-file write calls were made. -/
structure CacheFetchResult where
  result : Except FetchError (List Nat)
  state : SysState
  sourceCalled : Bool
  cacheWrites : Nat
deriving DecidableEq, Repr

/-- Model of `fetch_with_cache` (src/lib.rs lines 111-121).  The underlying
source is the value its `fetch()` would produce, `none` standing for a
source whose fetch panics; it is only consulted on the miss branch.
On `is_cache_timeout` returning `some false` (Fresh) the cache file is
read and that result — error included — is returned; otherwise the
source is fetched and, exactly when a cache file path is configured,
one write of the fetched bytes is attempted, whose failure is ignored. -/
def fetch_with_cache (fc : FileCache) (src : Option (Except FetchError (List Nat)))
    (st : SysState) : Option CacheFetchResult :=
  match fc.is_cache_timeout st with
  | .error e => some ⟨.error e, st, false, 0⟩
  | .ok fr =>
    if fr = some false then
      (fc.read_cache_file st).map (fun r => ⟨r, st, false, 0⟩)
    else
      match src with
      | none => none
      | some (.error e) => some ⟨.error e, st, true, 0⟩
      | some (.ok d) =>
        if fc.cache_file_path.isSome then
          match fc.write_cache_file st d with
          | none => none
          | some pr => some ⟨.ok d, pr.2, true, 1⟩
        else some ⟨.ok d, st, true, 0⟩

/-- One well-formed entry of an in-memory tar archive: its path and its
full data.  Malformed entries (unparsable header, unreadable path) are
outside the model; the source skips them in the search predicate and
panics on an unparsable entry list. -/
structure TarEntry where
  path : String
  data : List Nat
deriving DecidableEq, Repr

/-- The `Iterator::find` over tar entries in `get_file_from_tar`:
first entry, in archive order, whose path equals the requested one. -/
def findEntry : List TarEntry → String → Option TarEntry
  | [], _ => none
  | e :: rest, name => if e.path = name then some e else findEntry rest name

/-- Model of `get_file_from_tar` (src/lib.rs lines 463-504): scan the archive in
order for the first entry whose path equals the requested relative
path; on a match, read the entry fully and return its bytes with the
own path of the entry as provenance; with no match, fail with an io error of
the NotFound kind. -/
def get_file_from_tar (name : String) (entries : List TarEntry) :
    Except FetchError (List Nat × Option String) :=
  match findEntry entries name with
  | some e => .ok (e.data, some e.path)
  | none => .error (.I .notFound)

/-- Model of `SingleFileSource` from src/lib.rs: an HTTP source with its cache,
a file path, or inline bytes. -/
inductive SingleFileSource where
  | Http : HttpSource → FileCache → SingleFileSource
  | FilePath : String → SingleFileSource
  | Inline : List Nat → SingleFileSource
deriving DecidableEq, Repr

/-- Model of `GetPath for SingleFileSource` (src/lib.rs lines 294-303): the URL
for an HTTP source, the path for a file path, nothing for inline
bytes. -/
def SingleFileSource.get_path : SingleFileSource → Option String
  | .Http hs _ => some hs.url
  | .FilePath p => some p
  | .Inline _ => none

/-- Model of `SyncSource for SingleFileSource` (src/lib.rs lines 323-335):
Http goes through `fetch_with_cache` over the HTTP fetch, a file path
is read from disk, inline bytes are cloned.  `none` = panic. -/
def SingleFileSource.fetch (s : SingleFileSource) (st : SysState) (net : Network) :
    Option (Except FetchError (List Nat) × SysState) :=
  match s with
  | .Http hs fc =>
    (fetch_with_cache fc ((hs.fetch net).map (fun o => o.result)) st).map
      (fun c => (c.result, c.state))
  | .FilePath f => some (st.readFile f, st)
  | .Inline v => some (.ok v, st)

/-- The directory loop of the `Folders` arm of `get_file_content`
(src/lib.rs lines 433-444): `full` is the whole configured list, which
the final `NFD` error carries; the directories still to try are the
last argument.  `Path::new(dir).join(file_name)` on a relative name is
modelled as `dir ++ "/" ++ name`. -/
def joinPath (dir name : String) : String := dir ++ "/" ++ name

/-- See `joinPath`: try each remaining directory in order, and on the
first join that exists read that file (surfacing a read error);
when none exists fail with `NFD` carrying the full configured list. -/
def foldersGo (full : List String) (name : String) (st : SysState) :
    List String → Except FetchError (List Nat × Option String)
  | [] => .error (.NFD full)
  | dir :: rest =>
    match st.lookup (joinPath dir name) with
    | some _ => (st.readFile (joinPath dir name)).map (fun v => (v, some dir))
    | none => foldersGo full name st rest

/-- Model of `DataSource` from src/lib.rs, restricted to the data-carrying
variants; the pluggable `Sync`/`Async` trait-object variants delegate
to externally supplied code and are outside the model. -/
inductive DataSource where
  | StdReadFile
  | Folders : List String → DataSource
  | Tar : List TarEntry → DataSource
  | FileMap : List (String × SingleFileSource) → DataSource
deriving DecidableEq, Repr

/-- Model of `SyncFolderSource for DataSource`, `get_file_content`
(src/lib.rs lines 419-460): dispatch on the variant.  `StdReadFile`
reads the name as a path; `Folders` searches the directory list in
order; `Tar` looks the name up in the archive; `FileMap` looks the name
up in the map and fetches the mapped source, pairing the bytes with the
own declared path of the source.  `none` = panic of a nested fetch. -/
def DataSource.get_file_content (ds : DataSource) (name : String) (st : SysState)
    (net : Network) : Option (Except FetchError (List Nat × Option String) × SysState) :=
  match ds with
  | .StdReadFile => some ((st.readFile name).map (fun v => (v, none)), st)
  | .Folders dirs => some (foldersGo dirs name st dirs, st)
  | .Tar entries => some (get_file_from_tar name entries, st)
  | .FileMap m =>
    match lookupAssoc m name with
    | some sf =>
      (sf.fetch st net).map (fun pr => (pr.1.map (fun d => (d, sf.get_path)), pr.2))
    | none => some (.error .NF, st)

/-- C10: `HttpSource::fetch` panics (returns no value at all) exactly
when "use proxy by default" is set while no proxy address is
configured, because `set_proxy` unconditionally unwraps the proxy
address; so `fetch` is total precisely under the precondition that
`should_use_proxy` implies a configured proxy. -/
theorem http_fetch_panics_iff (hs : HttpSource) (net : Network) :
    hs.fetch net = none ↔ hs.should_use_proxy = true ∧ hs.proxy = none := by
  unfold HttpSource.fetch HttpSource.sendWithRetry
  cases hsp : hs.should_use_proxy <;> cases hp : hs.proxy <;>
    cases hd : net.direct <;> simp [hsp, hp, hd]

/-- C1: when "use proxy by default" is unset the first attempt is
direct; if that attempt fails and a proxy is configured, exactly one
retry is made with the proxy applied, and a failure of that retry is
surfaced as the network error `R`; with no proxy configured the first
failure is terminal with no retry, and with the proxy already used on
the first attempt a failure is likewise terminal with no retry, both
surfaced as `R`. -/
theorem http_fetch_retry_policy (hs : HttpSource) (net : Network) :
    (hs.should_use_proxy = false →
       ∀ out, hs.fetch net = some out → out.attempts.head? = some .direct) ∧
    (hs.should_use_proxy = false → ∀ e, net.direct = .error e →
       ((∀ p, hs.proxy = some p →
           (∀ r, net.viaProxy = .ok r →
              hs.fetch net =
                some ⟨(hs.readBody r).1, [.direct, .proxied], (hs.readBody r).2⟩) ∧
           (∀ e2, net.viaProxy = .error e2 →
              hs.fetch net = some ⟨.error (.R e2), [.direct, .proxied], false⟩)) ∧
        (hs.proxy = none →
           hs.fetch net = some ⟨.error (.R e), [.direct], false⟩))) ∧
    (hs.should_use_proxy = true → ∀ p, hs.proxy = some p →
       ∀ e, net.viaProxy = .error e →
         hs.fetch net = some ⟨.error (.R e), [.proxied], false⟩) := by
  refine ⟨?_, ?_, ?_⟩
  · intro hsp out hout
    unfold HttpSource.fetch HttpSource.sendWithRetry at hout
    rw [hsp] at hout
    cases hd : net.direct with
    | ok r =>
      rw [hd] at hout
      simp at hout
      simp [← hout]
    | error e =>
      rw [hd] at hout
      by_cases hp : hs.proxy.isSome
      · simp [hp] at hout
        cases hv : net.viaProxy <;> rw [hv] at hout <;> simp [← hout]
      · simp [hp] at hout
        simp [← hout]
  · intro hsp e hd
    refine ⟨fun p hp => ⟨fun r hv => ?_, fun e2 hv => ?_⟩, fun hp => ?_⟩ <;>
      simp [HttpSource.fetch, HttpSource.sendWithRetry, hsp, hd, hp, *]
  · intro hsp p hp e hv
    simp [HttpSource.fetch, HttpSource.sendWithRetry, hsp, hp, hv]

/-- C1 witness: with the proxy configured but not default, a failing
direct attempt (code 1) is retried exactly once through the proxy, and
the failing retry (code 2) is surfaced as the network error. -/
theorem http_fetch_retry_policy_witness :
    HttpSource.fetch ⟨"u", some "p", none, false, none⟩ ⟨.error 1, .error 2⟩ =
      some ⟨.error (.R 2), [.direct, .proxied], false⟩ :=
  (((http_fetch_retry_policy ⟨"u", some "p", none, false, none⟩
      ⟨.error 1, .error 2⟩).2.1 rfl 1 rfl).1 "p" rfl).2 2 rfl

/-- C4: the response-processing step fails with `S` without reading the
body whenever a size limit is configured and the declared content
length strictly exceeds it, and reads and returns the full body when no
content length is declared; and every successful send path (direct,
direct-then-proxy retry, proxy by default) routes its response through
exactly this step. -/
theorem http_size_limit_spec (hs : HttpSource) (net : Network) (sl : Nat)
    (r : HttpResponse) (hsl : hs.size_limit_bytes = some sl) :
    (∀ s, r.content_length = some s → sl < s →
       hs.readBody r = (.error .S, false)) ∧
    (r.content_length = none → hs.readBody r = (.ok r.body, true)) ∧
    (hs.should_use_proxy = false → net.direct = .ok r →
       hs.fetch net = some ⟨(hs.readBody r).1, [.direct], (hs.readBody r).2⟩) ∧
    (hs.should_use_proxy = false → hs.proxy.isSome = true →
       ∀ e, net.direct = .error e → net.viaProxy = .ok r →
         hs.fetch net =
           some ⟨(hs.readBody r).1, [.direct, .proxied], (hs.readBody r).2⟩) ∧
    (hs.should_use_proxy = true → ∀ p, hs.proxy = some p → net.viaProxy = .ok r →
       hs.fetch net = some ⟨(hs.readBody r).1, [.proxied], (hs.readBody r).2⟩) := by
  refine ⟨fun s hcl hlt => ?_, fun hcl => ?_, fun hsp hd => ?_,
    fun hsp hp e hd hv => ?_, fun hsp p hp hv => ?_⟩
  · simp [HttpSource.readBody, hsl, hcl, hlt]
  · simp [HttpSource.readBody, hsl, hcl]
  · simp [HttpSource.fetch, HttpSource.sendWithRetry, hsp, hd]
  · simp [HttpSource.fetch, HttpSource.sendWithRetry, hsp, hp, hd, hv]
  · simp [HttpSource.fetch, HttpSource.sendWithRetry, hsp, hp, hv]

theorem findEntry_none (name : String) (entries : List TarEntry)
    (h : ∀ e ∈ entries, e.path ≠ name) : findEntry entries name = none := by
  induction entries with
  | nil => rfl
  | cons e rest ih =>
    simp only [findEntry, if_neg (h e (List.mem_cons_self e rest))]
    exact ih fun x hx => h x (List.mem_cons_of_mem e hx)

theorem findEntry_first (name : String) (pre : List TarEntry) (e : TarEntry)
    (post : List TarEntry) (hpre : ∀ x ∈ pre, x.path ≠ name)
    (he : e.path = name) : findEntry (pre ++ e :: post) name = some e := by
  induction pre with
  | nil => simp [findEntry, he]
  | cons x rest ih =>
    simp only [List.cons_append, findEntry,
      if_neg (hpre x (List.mem_cons_self x rest))]
    exact ih fun y hy => hpre y (List.mem_cons_of_mem x hy)

/-- C5: archive lookup scans the entries in order matching by exact
path equality; the first match wins and its full bytes are returned
with its own path as provenance; with no match the lookup fails with an
io error of the NotFound kind. -/
theorem tar_lookup_spec (entries : List TarEntry) (name : String) :
    (∀ pre e post, entries = pre ++ e :: post →
       (∀ x ∈ pre, x.path ≠ name) → e.path = name →
       get_file_from_tar name entries = .ok (e.data, some e.path)) ∧
    ((∀ e ∈ entries, e.path ≠ name) →
       get_file_from_tar name entries = .error (.I .notFound)) := by
  constructor
  · intro pre e post heq hpre he
    subst heq
    simp [get_file_from_tar, findEntry_first name pre e post hpre he]
  · intro h
    simp [get_file_from_tar, findEntry_none name entries h]

/-- C5 witness: with duplicate entry name "b" at positions 1 and 2, the
lookup returns the bytes of the first occurrence. -/
theorem tar_lookup_spec_witness :
    get_file_from_tar "b" [⟨"a", [1]⟩, ⟨"b", [2]⟩, ⟨"b", [3]⟩] =
      .ok ([2], some "b") :=
  (tar_lookup_spec [⟨"a", [1]⟩, ⟨"b", [2]⟩, ⟨"b", [3]⟩] "b").1
    [⟨"a", [1]⟩] ⟨"b", [2]⟩ [⟨"b", [3]⟩] rfl (by decide) rfl

theorem foldersGo_none (full : List String) (name : String) (st : SysState)
    (l : List String) (h : ∀ dir ∈ l, st.lookup (joinPath dir name) = none) :
    foldersGo full name st l = .error (.NFD full) := by
  induction l with
  | nil => rfl
  | cons dir rest ih =>
    simp only [foldersGo, h dir (List.mem_cons_self dir rest)]
    exact ih fun x hx => h x (List.mem_cons_of_mem dir hx)

theorem foldersGo_first (full : List String) (name : String) (st : SysState)
    (pre : List String) (dk : String) (post : List String) (fd : FileData)
    (hpre : ∀ dir ∈ pre, st.lookup (joinPath dir name) = none)
    (hk : st.lookup (joinPath dk name) = some fd)
    (hr : joinPath dk name ∉ st.readFails) :
    foldersGo full name st (pre ++ dk :: post) = .ok (fd.content, some dk) := by
  induction pre with
  | nil => simp [foldersGo, hk, SysState.readFile, hr, Except.map]
  | cons x rest ih =>
    simp only [List.cons_append, foldersGo,
      hpre x (List.mem_cons_self x rest)]
    exact ih fun y hy => hpre y (List.mem_cons_of_mem x hy)

/-- C6: the Folders arm joins each configured directory in order with
the requested name; the first join that exists is read whole and its
bytes are returned with that directory as provenance; when no join
exists the lookup fails with `NFD` carrying exactly the configured
directory list. -/
theorem folders_lookup_spec (dirs : List String) (name : String) (st : SysState)
    (net : Network) :
    ((∀ dir ∈ dirs, st.lookup (joinPath dir name) = none) →
       DataSource.get_file_content (.Folders dirs) name st net =
         some (.error (.NFD dirs), st)) ∧
    (∀ pre dk post fd, dirs = pre ++ dk :: post →
       (∀ dir ∈ pre, st.lookup (joinPath dir name) = none) →
       st.lookup (joinPath dk name) = some fd →
       joinPath dk name ∉ st.readFails →
       DataSource.get_file_content (.Folders dirs) name st net =
         some (.ok (fd.content, some dk), st)) := by
  constructor
  · intro h
    simp [DataSource.get_file_content, foldersGo_none dirs name st dirs h]
  · intro pre dk post fd heq hpre hk hr
    subst heq
    simp [DataSource.get_file_content,
      foldersGo_first _ name st pre dk post fd hpre hk hr]

/-- C6 witness: with directories d1 and d2 and the file present only
under d2, resolution returns the d2 copy with provenance d2. -/
theorem folders_lookup_spec_witness :
    DataSource.get_file_content (.Folders ["d1", "d2"]) "f"
        ⟨[("d2/f", ⟨[8], 0⟩)], 0, [], []⟩ ⟨.error 0, .error 0⟩ =
      some (.ok ([8], some "d2"), ⟨[("d2/f", ⟨[8], 0⟩)], 0, [], []⟩) :=
  (folders_lookup_spec ["d1", "d2"] "f" ⟨[("d2/f", ⟨[8], 0⟩)], 0, [], []⟩
    ⟨.error 0, .error 0⟩).2 ["d1"] "d2" [] ⟨[8], 0⟩ rfl
    (by decide) (by decide) (by decide)

/-- C8: in the FileMap arm, a name mapped to an Inline entry yields
exactly the stored bytes with no provenance; a name mapped to a
FilePath entry yields the current bytes of that file with the configured
path as provenance; a name absent from the map fails with `NF`. -/
theorem filemap_lookup_spec (m : List (String × SingleFileSource))
    (name : String) (st : SysState) (net : Network) :
    (∀ v, lookupAssoc m name = some (.Inline v) →
       DataSource.get_file_content (.FileMap m) name st net =
         some (.ok (v, none), st)) ∧
    (∀ p fd, lookupAssoc m name = some (.FilePath p) →
       st.lookup p = some fd → p ∉ st.readFails →
       DataSource.get_file_content (.FileMap m) name st net =
         some (.ok (fd.content, some p), st)) ∧
    (lookupAssoc m name = none →
       DataSource.get_file_content (.FileMap m) name st net =
         some (.error .NF, st)) := by
  refine ⟨fun v h => ?_, fun p fd h hl hr => ?_, fun h => ?_⟩
  · simp [DataSource.get_file_content, h, SingleFileSource.fetch,
      SingleFileSource.get_path, Except.map]
  · simp [DataSource.get_file_content, h, SingleFileSource.fetch,
      SingleFileSource.get_path, SysState.readFile, hl, hr, Except.map]
  · simp [DataSource.get_file_content, h]

/-- C8 witness: the name "a" mapped to Inline bytes `[5]` resolves to
exactly those bytes with no provenance. -/
theorem filemap_lookup_spec_witness :
    DataSource.get_file_content (.FileMap [("a", .Inline [5])]) "a"
        ⟨[], 0, [], []⟩ ⟨.error 0, .error 0⟩ =
      some (.ok ([5], none), ⟨[], 0, [], []⟩) :=
  (filemap_lookup_spec [("a", .Inline [5])] "a" ⟨[], 0, [], []⟩
    ⟨.error 0, .error 0⟩).1 [5] (by decide)

/-- C9 (code bug): with no cache file path configured, both the cache
read and the cache write unconditionally unwrap the absent path and
panic (modelled as `none`), for every filesystem state and every byte
string; the `NC` ("no cache file") error the spec promises is declared
in `FetchError` but never produced. -/
theorem cache_no_path_panics (i : Option Nat) (st : SysState) (bytes : List Nat) :
    FileCache.read_cache_file ⟨i, none⟩ st = none ∧
    FileCache.write_cache_file ⟨i, none⟩ st bytes = none :=
  ⟨rfl, rfl⟩

/-- C2: the freshness check is Absent (`ok none`) iff the cache file
path is unset or the file does not exist; when the file exists and no
refresh interval is set it is Fresh (`ok (some false)`); when the file
exists, a refresh interval `N` is set and the modification time is not
in the future, the check returns whether the elapsed seconds strictly
exceed `N`, hence Fresh iff elapsed ≤ `N` (inclusive bound). -/
theorem is_cache_timeout_spec (fc : FileCache) (st : SysState) :
    (fc.is_cache_timeout st = .ok none ↔
       fc.cache_file_path = none ∨
       ∃ cf, fc.cache_file_path = some cf ∧ st.lookup cf = none) ∧
    (∀ cf fd, fc.cache_file_path = some cf → st.lookup cf = some fd →
       fc.update_interval_seconds = none →
       fc.is_cache_timeout st = .ok (some false)) ∧
    (∀ cf fd N, fc.cache_file_path = some cf → st.lookup cf = some fd →
       fc.update_interval_seconds = some N → fd.mtime ≤ st.now →
       fc.is_cache_timeout st = .ok (some (decide (N < st.now - fd.mtime)))) ∧
    (∀ cf fd N, fc.cache_file_path = some cf → st.lookup cf = some fd →
       fc.update_interval_seconds = some N → fd.mtime ≤ st.now →
       (fc.is_cache_timeout st = .ok (some false) ↔ st.now - fd.mtime ≤ N)) := by
  refine ⟨⟨fun h => ?_, fun h => ?_⟩, fun cf fd hcf hl hint => ?_,
    fun cf fd N hcf hl hint hm => ?_, fun cf fd N hcf hl hint hm => ?_⟩
  · cases hcf : fc.cache_file_path with
    | none => exact Or.inl rfl
    | some cf =>
      cases hl : st.lookup cf with
      | none => exact Or.inr ⟨cf, rfl, hl⟩
      | some fd =>
        exfalso
        cases hint : fc.update_interval_seconds with
        | none => simp [FileCache.is_cache_timeout, hcf, hl, hint] at h
        | some N =>
          by_cases hm : st.now < fd.mtime <;>
            simp [FileCache.is_cache_timeout, hcf, hl, hint, hm] at h
  · rcases h with h | ⟨cf, hcf, hl⟩
    · simp [FileCache.is_cache_timeout, h]
    · simp [FileCache.is_cache_timeout, hcf, hl]
  · simp [FileCache.is_cache_timeout, hcf, hl, hint]
  · simp [FileCache.is_cache_timeout, hcf, hl, hint, Nat.not_lt.mpr hm]
  · simp [FileCache.is_cache_timeout, hcf, hl, hint, Nat.not_lt.mpr hm]

/-- C2 witness: with a 5-second interval and a cache file exactly 5
seconds old, the check reports Fresh. -/
theorem is_cache_timeout_spec_witness :
    FileCache.is_cache_timeout ⟨some 5, some "c"⟩
      ⟨[("c", ⟨[1], 10⟩)], 15, [], []⟩ = .ok (some false) :=
  ((is_cache_timeout_spec ⟨some 5, some "c"⟩
      ⟨[("c", ⟨[1], 10⟩)], 15, [], []⟩).2.2.2 "c" ⟨[1], 10⟩ 5
    rfl rfl rfl (by decide)).mpr (by decide)

/-- C3: on Fresh the cached file is read and that result — a read error
included — is returned with no source call; on Stale or Absent the
source is fetched, a source error is surfaced, and on source success
the fetched bytes are returned with exactly one cache write attempted
when a cache file path is configured and none otherwise, a failing
write never failing the call. -/
theorem fetch_with_cache_spec (fc : FileCache) (st : SysState)
    (src : Option (Except FetchError (List Nat))) :
    (fc.is_cache_timeout st = .ok (some false) →
       ∃ r, fc.read_cache_file st = some r ∧
         fetch_with_cache fc src st = some ⟨r, st, false, 0⟩) ∧
    (∀ fr, fc.is_cache_timeout st = .ok fr → fr ≠ some false →
       (∀ e, src = some (.error e) →
          fetch_with_cache fc src st = some ⟨.error e, st, true, 0⟩) ∧
       (∀ d, src = some (.ok d) →
          ∃ out, fetch_with_cache fc src st = some out ∧
            out.result = .ok d ∧ out.sourceCalled = true ∧
            out.cacheWrites = if fc.cache_file_path.isSome then 1 else 0)) := by
  constructor
  · intro h
    cases hcf : fc.cache_file_path with
    | none => simp [FileCache.is_cache_timeout, hcf] at h
    | some cf =>
      refine ⟨st.readFile cf, by simp [FileCache.read_cache_file, hcf], ?_⟩
      simp [fetch_with_cache, h, FileCache.read_cache_file, hcf]
  · intro fr hfr hne
    constructor
    · intro e hsrc
      simp [fetch_with_cache, hfr, hne, hsrc]
    · intro d hsrc
      cases hcf : fc.cache_file_path with
      | none =>
        refine ⟨⟨.ok d, st, true, 0⟩, ?_, rfl, rfl, by simp [hcf]⟩
        simp [fetch_with_cache, hfr, hne, hsrc, hcf]
      | some cf =>
        by_cases hw : cf ∈ st.writeFails
        · refine ⟨⟨.ok d, st, true, 1⟩, ?_, rfl, rfl, by simp [hcf]⟩
          simp [fetch_with_cache, hfr, hne, hsrc, hcf,
            FileCache.write_cache_file, hw]
        · refine ⟨⟨.ok d, st.writeFile cf d, true, 1⟩, ?_, rfl, rfl, by simp [hcf]⟩
          simp [fetch_with_cache, hfr, hne, hsrc, hcf,
            FileCache.write_cache_file, hw]

/-- C3 witness: with a fresh cache file holding bytes `[9]`,
`fetch_with_cache` returns them without consulting the source. -/
theorem fetch_with_cache_spec_witness :
    fetch_with_cache ⟨some 5, some "c"⟩ (some (.ok [3]))
        ⟨[("c", ⟨[9], 10⟩)], 12, [], []⟩ =
      some ⟨.ok [9], ⟨[("c", ⟨[9], 10⟩)], 12, [], []⟩, false, 0⟩ := by
  obtain ⟨r, hr, hf⟩ := (fetch_with_cache_spec ⟨some 5, some "c"⟩
    ⟨[("c", ⟨[9], 10⟩)], 12, [], []⟩ (some (.ok [3]))).1 (by decide)
  have h2 : FileCache.read_cache_file ⟨some 5, some "c"⟩
      ⟨[("c", ⟨[9], 10⟩)], 12, [], []⟩ = some (.ok [9]) := by decide
  rw [Option.some.inj (hr.symm.trans h2)] at hf
  exact hf

/-- C7: a `fetch_with_cache` call that misses (freshness is not Fresh),
fetches bytes `d` from the source and writes them to the configured
cache file, followed by a second call whose clock is within the refresh
interval of the write, returns the same bytes `d` from the cache on the
second call without consulting the source of that call at all. -/
theorem cache_round_trip (fc : FileCache) (cf : String) (N : Nat) (d : List Nat)
    (st : SysState) (now2 : Nat) (fr : Option Bool)
    (src2 : Option (Except FetchError (List Nat)))
    (hcf : fc.cache_file_path = some cf)
    (hN : fc.update_interval_seconds = some N)
    (hfr : fc.is_cache_timeout st = .ok fr) (hne : fr ≠ some false)
    (hw : cf ∉ st.writeFails) (hr : cf ∉ st.readFails)
    (h1 : st.now ≤ now2) (h2 : now2 - st.now ≤ N) :
    fetch_with_cache fc (some (.ok d)) st =
      some ⟨.ok d, st.writeFile cf d, true, 1⟩ ∧
    fetch_with_cache fc src2 { st.writeFile cf d with now := now2 } =
      some ⟨.ok d, { st.writeFile cf d with now := now2 }, false, 0⟩ := by
  have hnotlt : ¬ now2 < st.now := by omega
  have hdec : ¬ N < now2 - st.now := by omega
  constructor
  · simp [fetch_with_cache, hfr, hne, hcf, FileCache.write_cache_file, hw]
  · simp [fetch_with_cache, FileCache.is_cache_timeout, hcf, SysState.lookup,
      SysState.writeFile, lookupAssoc, hN, hnotlt, hdec,
      FileCache.read_cache_file, SysState.readFile, hr]

/-- C7 witness: an absent cache at time 10 causes a fetch of `[4]` and
a cache write; a second call at time 12 (within the 5-second interval)
returns `[4]` from the cache even with a panicking source. -/
theorem cache_round_trip_witness :
    fetch_with_cache ⟨some 5, some "c"⟩ (some (.ok [4])) ⟨[], 10, [], []⟩ =
      some ⟨.ok [4], ⟨[("c", ⟨[4], 10⟩)], 10, [], []⟩, true, 1⟩ ∧
    fetch_with_cache ⟨some 5, some "c"⟩ none ⟨[("c", ⟨[4], 10⟩)], 12, [], []⟩ =
      some ⟨.ok [4], ⟨[("c", ⟨[4], 10⟩)], 12, [], []⟩, false, 0⟩ :=
  cache_round_trip ⟨some 5, some "c"⟩ "c" 5 [4] ⟨[], 10, [], []⟩ 12 none none
    rfl rfl (by decide) (by decide) (by decide) (by decide)
    (by decide) (by decide)

/-- C4 witness: with a ceiling of 100 bytes and a response declaring
content length 101 on a successful direct attempt, fetch fails with `S`
and the body is not read. -/
theorem http_size_limit_spec_witness :
    HttpSource.fetch ⟨"u", none, none, false, some 100⟩
        ⟨.ok ⟨some 101, [7]⟩, .error 0⟩ =
      some ⟨.error .S, [.direct], false⟩ := by
  have h := http_size_limit_spec ⟨"u", none, none, false, some 100⟩
    ⟨.ok ⟨some 101, [7]⟩, .error 0⟩ 100 ⟨some 101, [7]⟩ rfl
  have hb := h.1 101 rfl (by decide)
  have hf := h.2.2.1 rfl rfl
  rw [hb] at hf
  exact hf
